import Mathlib

/-!
Verification development for the pycaps anti-hallucination transcription
pipeline: a shallow embedding of `pycaps/transcriber/whisper_audio_transcriber.py`
and `pycaps/transcriber/anti_hallucination_config.py`.

Conventions of the embedding:
- Python `float` times and thresholds are modelled as `ℚ` (the concrete
  constants of the source are small decimal fractions, exact in both binary64
  and `ℚ`; the comparisons proved or refuted here never sit within a rounding
  error of a branch cut).
- Python `while` loops whose termination is in question are modelled with an
  explicit fuel parameter; `none` means the loop was still running when the
  fuel ran out, so a result of `none` for every fuel is non-termination.
- A transcript `Document` (from `pycaps.common`, whose file is not part of the
  sources here; the spec describes it as an ordered collection of segments,
  each an ordered sequence of word tokens) is modelled as `List (List String)`:
  the list of segments, each the list of its word texts in order, since the
  hallucination filter reads exactly that. Where the segment spans matter
  (the chunk merger) a segment is its `(start, end)` pair in `ℚ`.
- Python string primitives used by the source (`str.lower`, `str.strip`,
  `str.split`, `in`) are re-implemented structurally over `List Char` so that
  they compute by kernel reduction; they agree with Python on the ASCII and
  accented-Latin text involved here.
-/

/-- Python `str.lower` for one character, over the ASCII range the proofs
exercise (Python also lowercases non-ASCII letters; the inputs evaluated in
this file are lowercase outside ASCII). -/
def chLower (c : Char) : Char :=
  if 'A' ≤ c ∧ c ≤ 'Z' then Char.ofNat (c.toNat + 32) else c

/-- Python `str.lower`. -/
def pyLower (s : String) : String := ⟨s.data.map chLower⟩

/-- Python `str.strip()`: leading and trailing whitespace removed. -/
def pyStrip (s : String) : String :=
  ⟨((s.data.dropWhile Char.isWhitespace).reverse.dropWhile Char.isWhitespace).reverse⟩

/-- Helper of `pyWords`: split a character list at whitespace runs, the
current in-progress word carried reversed. -/
def pyWordsAux : List Char → List Char → List String
  | [], acc => if acc.isEmpty then [] else [⟨acc.reverse⟩]
  | c :: cs, acc =>
    if c.isWhitespace then
      (if acc.isEmpty then [] else [⟨acc.reverse⟩]) ++ pyWordsAux cs []
    else
      pyWordsAux cs (c :: acc)

/-- Python `str.split()` with no separator: the whitespace-separated words,
with no empty strings. -/
def pyWords (s : String) : List String := pyWordsAux s.data []

/-- Helper of `strContainsSub`: does the first list start the second? -/
def leadsWith : List Char → List Char → Bool
  | [], _ => true
  | _ :: _, [] => false
  | a :: as, b :: bs => a = b && leadsWith as bs

/-- Helper of `strContainsSub` over character lists. -/
def listHasSub (sub : List Char) : List Char → Bool
  | [] => sub.isEmpty
  | c :: cs => leadsWith sub (c :: cs) || listHasSub sub cs

/-- Python `sub in s` on strings: substring containment. -/
def strContainsSub (s sub : String) : Bool := listHasSub sub.data s.data

/-- `AntiHallucinationConfig` of `anti_hallucination_config.py` (lines 10-45),
with the source's field defaults. `vad_provider` and the counters are carried
verbatim even where no claim consumes them. -/
structure AntiHallucinationConfig where
  enable_vad : Bool := true
  vad_provider : String := "silero"
  vad_aggressiveness : ℕ := 3
  chunk_length : ℚ := 30
  overlap : ℚ := 2
  min_chunk_duration : ℚ := 5
  use_chunking_threshold : ℚ := 90
  adaptive_thresholds : Bool := true
  compression_ratio_base : ℚ := 24/10
  logprob_base : ℚ := -1
  no_speech_base : ℚ := 6/10
  auto_model_selection : Bool := true
  prefer_large_v2_for_long : Bool := true
  fallback_enabled : Bool := true
  enable_repetition_filter : Bool := true
  enable_semantic_filter : Bool := true
  enable_compression_filter : Bool := true
  enable_looping_filter : Bool := true
  semantic_similarity_threshold : ℚ := 8/10
  compression_ratio_threshold : ℚ := 4
  max_consecutive_repetitions : ℕ := 2

/-- The three decoding thresholds `get_whisper_params` returns (the dict of
`anti_hallucination_config.py` lines 112-134). -/
structure WhisperParams where
  compression_ratio_threshold : ℚ
  logprob_threshold : ℚ
  no_speech_threshold : ℚ
deriving DecidableEq

/-- `AntiHallucinationConfig.get_whisper_params` (lines 108-134): duration
buckets offset the three base thresholds when adaptive thresholds are on. -/
def AntiHallucinationConfig.get_whisper_params (c : AntiHallucinationConfig)
    (duration : ℚ) : WhisperParams :=
  if c.adaptive_thresholds = true then
    if duration > 300 then
      ⟨c.compression_ratio_base - 3/10, c.logprob_base + 2/10, c.no_speech_base + 1/10⟩
    else if duration > 120 then
      ⟨c.compression_ratio_base - 2/10, c.logprob_base + 1/10, c.no_speech_base + 5/100⟩
    else
      ⟨c.compression_ratio_base, c.logprob_base, c.no_speech_base⟩
  else
    ⟨c.compression_ratio_base, c.logprob_base, c.no_speech_base⟩

/-- `AntiHallucinationConfig.should_use_chunking` (lines 136-138). -/
def AntiHallucinationConfig.should_use_chunking (c : AntiHallucinationConfig)
    (duration : ℚ) : Bool :=
  duration > c.use_chunking_threshold

/-- `AntiHallucinationConfig.get_optimal_model` (lines 140-157): the
`if / elif` ladder substituting "large-v2" for degeneration-prone requests on
long audio. -/
def AntiHallucinationConfig.get_optimal_model (c : AntiHallucinationConfig)
    (requested : String) (duration : ℚ) : String :=
  if c.auto_model_selection = false then requested
  else if duration > 300 ∧ c.prefer_large_v2_for_long = true then
    if requested = "large-v3" ∨ requested = "large" then "large-v2" else requested
  else if duration > 120 ∧ c.prefer_large_v2_for_long = true then
    if requested = "large-v3" then "large-v2" else requested
  else requested

/-- `PresetConfigs.balanced` (lines 200-202): the all-defaults configuration. -/
def PresetConfigs.balanced : AntiHallucinationConfig := {}

/-- C6 counterexample: with the default (`balanced`) configuration and adaptive
thresholds on, the log-probability threshold returned for a duration over 300s
is `-0.8`, which is strictly HIGHER than the `-1.0` returned at 120s — the
claim's "strictly lower log-probability threshold" fails. -/
theorem get_whisper_params_logprob_not_lower :
    (PresetConfigs.balanced.get_whisper_params 301).logprob_threshold = -8/10 ∧
    (PresetConfigs.balanced.get_whisper_params 120).logprob_threshold = -1 ∧
    ¬ ((PresetConfigs.balanced.get_whisper_params 301).logprob_threshold <
        (PresetConfigs.balanced.get_whisper_params 120).logprob_threshold) := by
  refine ⟨?_, ?_, ?_⟩ <;>
    norm_num [PresetConfigs.balanced, AntiHallucinationConfig.get_whisper_params]

/-- C6 amended: for every configuration with adaptive thresholds enabled, a
duration over 300s yields a strictly lower compression-ratio threshold, a
strictly HIGHER log-probability threshold, and a strictly higher no-speech
threshold than a duration of at most 120s. -/
theorem get_whisper_params_long_adjustments (c : AntiHallucinationConfig)
    (d1 d2 : ℚ) (had : c.adaptive_thresholds = true) (h1 : d1 ≤ 120) (h2 : 300 < d2) :
    (c.get_whisper_params d2).compression_ratio_threshold <
      (c.get_whisper_params d1).compression_ratio_threshold ∧
    (c.get_whisper_params d1).logprob_threshold <
      (c.get_whisper_params d2).logprob_threshold ∧
    (c.get_whisper_params d1).no_speech_threshold <
      (c.get_whisper_params d2).no_speech_threshold := by
  have h300 : ¬ (d1 > 300) := by linarith
  have h120 : ¬ (d1 > 120) := by linarith
  have h2' : d2 > 300 := h2
  simp only [AntiHallucinationConfig.get_whisper_params, had, if_pos rfl,
    if_pos h2', if_neg h300, if_neg h120, if_true]
  refine ⟨by linarith, by linarith, by linarith⟩

/-- C6 witness: the amended inequalities at the default configuration,
durations 100 and 350. -/
theorem get_whisper_params_long_adjustments_witness :
    (PresetConfigs.balanced.get_whisper_params 350).compression_ratio_threshold <
      (PresetConfigs.balanced.get_whisper_params 100).compression_ratio_threshold ∧
    (PresetConfigs.balanced.get_whisper_params 100).logprob_threshold <
      (PresetConfigs.balanced.get_whisper_params 350).logprob_threshold ∧
    (PresetConfigs.balanced.get_whisper_params 100).no_speech_threshold <
      (PresetConfigs.balanced.get_whisper_params 350).no_speech_threshold :=
  get_whisper_params_long_adjustments PresetConfigs.balanced 100 350 rfl
    (by norm_num) (by norm_num)

/-- C10: `get_optimal_model` either returns the requested model unchanged, or
returns "large-v2" with auto-selection and the large-v2 preference both on,
the duration over 120s, and the requested model "large-v3" (or "large" with
the duration over 300s). In particular nothing is substituted at or below
120s and the only substitution target is "large-v2". -/
theorem get_optimal_model_spec (c : AntiHallucinationConfig) (r : String) (d : ℚ) :
    c.get_optimal_model r d = r ∨
    (c.get_optimal_model r d = "large-v2" ∧
      c.auto_model_selection = true ∧ c.prefer_large_v2_for_long = true ∧
      120 < d ∧ (r = "large-v3" ∨ (r = "large" ∧ 300 < d))) := by
  unfold AntiHallucinationConfig.get_optimal_model
  split_ifs with h1 h2 h3 h4 h5
  · exact Or.inl rfl
  · right
    have hauto : c.auto_model_selection = true := by
      cases hb : c.auto_model_selection
      · exact absurd hb h1
      · rfl
    rcases h3 with h3 | h3
    · exact ⟨rfl, hauto, h2.2, by linarith [h2.1], Or.inl h3⟩
    · exact ⟨rfl, hauto, h2.2, by linarith [h2.1], Or.inr ⟨h3, h2.1⟩⟩
  · exact Or.inl rfl
  · right
    have hauto : c.auto_model_selection = true := by
      cases hb : c.auto_model_selection
      · exact absurd hb h1
      · rfl
    exact ⟨rfl, hauto, h4.2, h4.1, Or.inl h5⟩
  · exact Or.inl rfl
  · exact Or.inl rfl

/-- The inner splitting loop of `_create_chunks_from_speech_segments`
(`whisper_audio_transcriber.py` lines 441-448): while `segment_start < end`,
append `(segment_start, min(segment_start + L, end, total_duration))`, pull
`segment_start` back to `chunk_end - overlap`, and break only if that did not
decrease it below `chunk_end`. `fuel` bounds the number of iterations the
model will run; `none` means the loop was still going when the fuel ran out. -/
def split_speech_loop (L O d e : ℚ) : ℕ → ℚ → Option (List (ℚ × ℚ))
  | 0, s => if s < e then none else some []
  | fuel + 1, s =>
    if s < e then
      let ce := min (min (s + L) e) d
      let s2 := ce - O
      if s2 ≥ ce then some [(s, ce)]
      else (split_speech_loop L O d e fuel s2).map (fun rest => (s, ce) :: rest)
    else some []

/-- The `for start, end in speech_segments` loop of
`_create_chunks_from_speech_segments` (lines 431-450), carrying
`current_start`; returns the chunks it appended and the final
`current_start`. -/
def chunks_over_segments (L O d : ℚ) (fuel : ℕ) :
    ℚ → List (ℚ × ℚ) → Option (List (ℚ × ℚ) × ℚ)
  | cur, [] => some ([], cur)
  | cur, (st, e) :: rest =>
    let pre : List (ℚ × ℚ) :=
      if st > cur + L ∧ cur < st then [(cur, min (cur + L) st)] else []
    let cur1 := if st > cur + L then st else cur
    match split_speech_loop L O d e fuel (max cur1 st) with
    | none => none
    | some mids =>
      match chunks_over_segments L O d fuel (max cur1 (e - O)) rest with
      | none => none
      | some (tail, fin) => some (pre ++ mids ++ tail, fin)

/-- The time-based fallback chunking of `_create_chunks_from_speech_segments`
(lines 419-426), used when the speech-segment list is empty: chunks of length
`L` advancing by `L - O`. -/
def time_based_chunks (L O d : ℚ) : ℕ → ℚ → Option (List (ℚ × ℚ))
  | 0, cur => if cur < d then none else some []
  | fuel + 1, cur =>
    if cur < d then
      (time_based_chunks L O d fuel (cur + (L - O))).map
        (fun rest => (cur, min (cur + L) d) :: rest)
    else some []

/-- `_create_chunks_from_speech_segments` (lines 414-456): chunk length `L`
and overlap `O` from the configuration, `segs` the speech intervals, `d` the
total duration. -/
def create_chunks_from_speech_segments (L O : ℚ) (segs : List (ℚ × ℚ)) (d : ℚ)
    (fuel : ℕ) : Option (List (ℚ × ℚ)) :=
  match segs with
  | [] => time_based_chunks L O d fuel 0
  | _ :: _ =>
    (chunks_over_segments L O d fuel 0 segs).map
      (fun p => if p.2 < d then p.1 ++ [(p.2, d)] else p.1)

/-- The inner splitting loop never finishes once entered, for any fuel: with a
positive overlap, `chunk_end ≤ end` forces the new `segment_start`
(`chunk_end - O`) strictly below `end`, so the loop condition stays true, and
the break guard `segment_start >= chunk_end` needs `O ≤ 0`. -/
theorem split_speech_loop_none (L O d e : ℚ) (hO : 0 < O) (hed : e ≤ d) :
    ∀ (fuel : ℕ) (s : ℚ), s < e → split_speech_loop L O d e fuel s = none := by
  intro fuel
  induction fuel with
  | zero => intro s hs; simp [split_speech_loop, hs]
  | succ n ih =>
    intro s hs
    have hce : min (min (s + L) e) d - O < min (min (s + L) e) d := by linarith
    have hce2 : min (min (s + L) e) d ≤ e := le_trans (min_le_left _ _) (min_le_right _ _)
    have hs2 : min (min (s + L) e) d - O < e := by linarith
    simp only [split_speech_loop, if_pos hs]
    rw [if_neg (by push_neg; exact hce), ih _ hs2]
    rfl

/-- Shared helper: with a positive overlap, a first speech interval
`(st, e)` with `0 ≤ st < e ≤ d` makes the whole planner diverge — the inner
loop is entered at `segment_start = st` and never exits. -/
theorem create_chunks_cons_none (L O d st e : ℚ) (rest : List (ℚ × ℚ))
    (hO : 0 < O) (hst : 0 ≤ st) (hse : st < e) (hed : e ≤ d) (fuel : ℕ) :
    create_chunks_from_speech_segments L O ((st, e) :: rest) d fuel = none := by
  unfold create_chunks_from_speech_segments chunks_over_segments
  have hloop : split_speech_loop L O d e fuel
      (max (if st > 0 + L then st else 0) st) = none := by
    apply split_speech_loop_none L O d e hO hed
    rcases le_or_lt st (0 + L) with h | h
    · rw [if_neg (not_lt.mpr h), max_eq_right hst]; exact hse
    · rw [if_pos h, max_self]; exact hse
  simp only [hloop, Option.map_none']

/-- C1 (code_bug): the chunk planner does not terminate. For every chunk
length, every positive overlap, every non-degenerate leading speech interval
inside `[0, d]` and EVERY fuel, the loop is still running — the claim's
"terminates and returns a finite ordered list" fails on all such inputs. -/
theorem create_chunks_diverges_on_speech (L O d st e : ℚ) (rest : List (ℚ × ℚ))
    (hO : 0 < O) (hst : 0 ≤ st) (hse : st < e) (hed : e ≤ d) (fuel : ℕ) :
    create_chunks_from_speech_segments L O ((st, e) :: rest) d fuel = none :=
  create_chunks_cons_none L O d st e rest hO hst hse hed fuel

/-- C1 witness: the failing input of the bug report — chunk length 30,
overlap 2, single full-length speech interval over 100 seconds. -/
theorem create_chunks_diverges_on_speech_witness :
    create_chunks_from_speech_segments 30 2 [(0, 100)] 100 5 = none :=
  create_chunks_diverges_on_speech 30 2 100 0 100 [] (by norm_num) (by norm_num)
    (by norm_num) (by norm_num) 5

/-- C2 (code_bug): on the single full-length speech interval `[(0, 100)]`
with the default chunk geometry (L=30, O=2), the planner produces no chunk
list at all, for any fuel — there is no output whose spans could cover
`[0, 100)` or overlap pairwise by the configured overlap. -/
theorem create_chunks_full_interval_no_output (fuel : ℕ) :
    create_chunks_from_speech_segments 30 2 [(0, 100)] 100 fuel = none :=
  create_chunks_cons_none 30 2 100 0 100 [] (by norm_num) (by norm_num)
    (by norm_num) (by norm_num) fuel

/-- A transcript segment as the merger sees it: its `(start, end)` span. -/
abbrev MergeSeg := ℚ × ℚ

/-- The segment midpoint `(segment.time.start + segment.time.end) / 2`
(`whisper_audio_transcriber.py` line 557). -/
def seg_mid (s : MergeSeg) : ℚ := (s.1 + s.2) / 2

/-- The per-segment decision of `_merge_chunked_documents` (lines 556-572) for
a chunk with a predecessor: a segment is dropped exactly when its midpoint
lies in the overlap window and the previous chunk's center is at least as
close to it as the current chunk's. -/
def keep_segment (O : ℚ) (prev cur : ℚ × ℚ) (s : MergeSeg) : Bool :=
  let mid := seg_mid s
  let ov_start := max cur.1 (prev.2 - O)
  if ov_start ≤ mid ∧ mid ≤ cur.1 + O then
    decide (|mid - (prev.1 + prev.2) / 2| > |mid - (cur.1 + cur.2) / 2|)
  else true

/-- The chunk loop of `_merge_chunked_documents` (lines 552-575), walking the
per-chunk documents paired with their chunk spans and carrying the previous
chunk (none for the first). -/
def merge_docs_aux (O : ℚ) :
    Option (ℚ × ℚ) → List (List MergeSeg × (ℚ × ℚ)) → List MergeSeg
  | _, [] => []
  | prev, (doc, ch) :: rest =>
    doc.filter (fun s =>
      match prev with
      | none => true
      | some p => keep_segment O p ch s) ++ merge_docs_aux O (some ch) rest

/-- `_merge_chunked_documents` (lines 542-584): empty input gives an empty
document, a single document is returned as is, otherwise the per-chunk keep
decision runs and the survivors are stably sorted by start time (Python's
`sorted`, modelled by insertion sort, which is also stable). -/
def merge_chunked_documents (O : ℚ) (docs : List (List MergeSeg))
    (chunks : List (ℚ × ℚ)) : List MergeSeg :=
  match docs with
  | [] => []
  | [doc] => doc
  | _ :: _ :: _ =>
    List.insertionSort (fun a b => a.1 ≤ b.1) (merge_docs_aux O none (docs.zip chunks))

/-- C5 counterexample: chunks `[0,32)` and `[30,62)` with overlap 2 and the
same segment `(31.8, 32)` transcribed by both chunks; its midpoint `31.9` is
in the overlap region and the LATER chunk's center (46) is strictly closer
(14.1 versus 15.9), so the later copy is kept — but the earlier chunk's copy
is never examined against its successor and survives too: the segment appears
twice in the merged transcript, not exactly once. -/
theorem merge_duplicate_in_overlap :
    merge_chunked_documents 2 [[(159/5, 32)], [(159/5, 32)]] [(0, 32), (30, 62)]
      = [(159/5, 32), (159/5, 32)] ∧
    (merge_chunked_documents 2 [[(159/5, 32)], [(159/5, 32)]]
      [(0, 32), (30, 62)]).count (159/5, 32) ≠ 1 := by
  have hkeep : keep_segment 2 (0, 32) (30, 62) (159/5, 32) = true := by
    rw [keep_segment]
    norm_num [seg_mid, abs_of_nonneg, abs_of_nonpos]
  constructor
  · rw [merge_chunked_documents]
    simp [merge_docs_aux, hkeep, List.insertionSort, List.orderedInsert]
  · rw [merge_chunked_documents]
    simp [merge_docs_aux, hkeep, List.insertionSort, List.orderedInsert, List.count_cons]

/-- Occurrence count of a segment in a merged document (used to state the
"exactly once / never both / never neither" attribution property without
fixing a `BEq` instance). -/
def seg_occurrences (l : List MergeSeg) (s : MergeSeg) : ℕ :=
  l.countP (fun x => x = s)

/-- C5 amended: for two consecutive chunks `(a,b)` and `(c,e)` that both
transcribed the same segment `s` whose midpoint lies in the overlap window,
the merged transcript contains `s` once when the previous chunk's center is
at least as close to the midpoint (the later copy is dropped), and TWICE when
the later chunk's center is strictly closer (the earlier copy is always kept
unconditionally) — never zero times. -/
theorem merge_overlap_attribution (O a b c e : ℚ) (s : MergeSeg)
    (hreg : max c (b - O) ≤ seg_mid s ∧ seg_mid s ≤ c + O) :
    seg_occurrences (merge_chunked_documents O [[s], [s]] [(a, b), (c, e)]) s =
      (if |seg_mid s - (a + b) / 2| ≤ |seg_mid s - (c + e) / 2| then 1 else 2) ∧
    1 ≤ seg_occurrences (merge_chunked_documents O [[s], [s]] [(a, b), (c, e)]) s := by
  have hperm :
      seg_occurrences (merge_chunked_documents O [[s], [s]] [(a, b), (c, e)]) s =
      seg_occurrences (merge_docs_aux O none [([s], (a, b)), ([s], (c, e))]) s := by
    rw [merge_chunked_documents, seg_occurrences, seg_occurrences]
    exact (List.perm_insertionSort (fun x y : MergeSeg => x.1 ≤ y.1)
      (merge_docs_aux O none ([[s], [s]].zip [(a, b), (c, e)]))).countP_eq _
  have haux : merge_docs_aux O none [([s], (a, b)), ([s], (c, e))] =
      s :: List.filter (fun x => keep_segment O (a, b) (c, e) x) [s] := by
    simp [merge_docs_aux]
  by_cases hcl : |seg_mid s - (a + b) / 2| ≤ |seg_mid s - (c + e) / 2|
  · have hkeep : keep_segment O (a, b) (c, e) s = false := by
      rw [keep_segment]
      simp only [if_pos hreg, decide_eq_false_iff_not, not_lt]
      exact hcl
    rw [hperm, haux]
    simp [seg_occurrences, List.filter, hkeep, if_pos hcl]
  · have hkeep : keep_segment O (a, b) (c, e) s = true := by
      rw [keep_segment]
      simp only [if_pos hreg, decide_eq_true_eq]
      exact lt_of_not_le hcl
    rw [hperm, haux]
    simp [seg_occurrences, List.filter, hkeep, if_neg hcl]

/-- C5 witness: the spec's own boundary example — chunks `[0,32)` and
`[30,62)`, overlap 2, a segment `(30,31)` with midpoint 30.5 transcribed by
both; the earlier center 16 is closer than 46, so the segment appears exactly
once. -/
theorem merge_overlap_attribution_witness :
    seg_occurrences (merge_chunked_documents 2 [[((30 : ℚ), (31 : ℚ))], [(30, 31)]]
        [(0, 32), (30, 62)]) (30, 31) =
      (if |seg_mid ((30 : ℚ), (31 : ℚ)) - (0 + 32) / 2| ≤
          |seg_mid ((30 : ℚ), (31 : ℚ)) - (30 + 62) / 2| then 1 else 2) ∧
    1 ≤ seg_occurrences (merge_chunked_documents 2 [[((30 : ℚ), (31 : ℚ))], [(30, 31)]]
        [(0, 32), (30, 62)]) (30, 31) :=
  merge_overlap_attribution 2 0 32 30 62 (30, 31) (by norm_num [seg_mid])

/-- What the external collaborators can do to one chunk of
`_transcribe_chunked` (lines 385-398): the audio extraction raises, the
chunk transcription raises (caught by the inner `try`), or both succeed. -/
inductive ChunkOutcome where
  | extract_raises : ChunkOutcome
  | decode_raises : ChunkOutcome
  | ok : ChunkOutcome
deriving DecidableEq

/-- The temp-file bookkeeping of one `_transcribe_chunked` call: which chunk
indices got a temp file created, and which of those were unlinked before the
function returned. -/
structure ChunkedRun where
  created : List ℕ
  deleted : List ℕ
deriving DecidableEq

/-- The chunk loop plus the cleanup loop of `_transcribe_chunked`
(lines 382-405), on the per-chunk outcomes. A `decode_raises` outcome is
caught by the inner `try/except` and the loop continues (the temp file is
already in `temp_files`); an `extract_raises` outcome propagates out of the
whole `try` body to the fallback handler (line 410), skipping the cleanup
loop entirely, so nothing is unlinked. When the loop finishes, the cleanup
loop unlinks every recorded temp file. -/
def transcribe_chunked_files : List (ℕ × ChunkOutcome) → List ℕ → ChunkedRun
  | [], created => ⟨created, created⟩
  | (i, o) :: rest, created =>
    match o with
    | ChunkOutcome.extract_raises => ⟨created, []⟩
    | ChunkOutcome.decode_raises => transcribe_chunked_files rest (created ++ [i])
    | ChunkOutcome.ok => transcribe_chunked_files rest (created ++ [i])

/-- `_transcribe_chunked`, viewed through its temp-file effects: run the chunk
loop over the indexed outcomes starting from no temp files. -/
def transcribe_chunked_run (outcomes : List ChunkOutcome) : ChunkedRun :=
  transcribe_chunked_files outcomes.enum []

/-- C7 counterexample: two chunks, the first succeeds and the second's audio
extraction raises — the first chunk's temp file was created but the function
returns (falling back to single transcription) without deleting anything. -/
theorem transcribe_chunked_leaks_on_extract_failure :
    (transcribe_chunked_run [ChunkOutcome.ok, ChunkOutcome.extract_raises]).created
        = [0] ∧
    (transcribe_chunked_run [ChunkOutcome.ok, ChunkOutcome.extract_raises]).deleted
        = [] ∧
    0 ∈ (transcribe_chunked_run [ChunkOutcome.ok, ChunkOutcome.extract_raises]).created ∧
    0 ∉ (transcribe_chunked_run [ChunkOutcome.ok, ChunkOutcome.extract_raises]).deleted := by
  refine ⟨rfl, rfl, ?_, ?_⟩ <;> decide

/-- Helper for C7: as long as no extraction raises, the loop reaches the
cleanup pass and everything recorded (including what was created before the
call) is deleted. -/
theorem transcribe_chunked_files_cleanup (outcomes : List (ℕ × ChunkOutcome))
    (h : ∀ p ∈ outcomes, p.2 ≠ ChunkOutcome.extract_raises) :
    ∀ created, (transcribe_chunked_files outcomes created).deleted =
      (transcribe_chunked_files outcomes created).created := by
  induction outcomes with
  | nil => intro created; rfl
  | cons p rest ih =>
    intro created
    obtain ⟨i, o⟩ := p
    have ho : o ≠ ChunkOutcome.extract_raises := h (i, o) (List.mem_cons_self _ _)
    have hrest : ∀ q ∈ rest, q.2 ≠ ChunkOutcome.extract_raises :=
      fun q hq => h q (List.mem_cons_of_mem _ hq)
    cases o with
    | extract_raises => exact absurd rfl ho
    | decode_raises => exact ih hrest (created ++ [i])
    | ok => exact ih hrest (created ++ [i])

/-- C7 amended: every temp file is deleted before `_transcribe_chunked`
returns whenever no chunk's extraction raises — decoding failures included,
since those are caught chunk-locally; but when an extraction raises, the
files of the earlier chunks are leaked (the cleanup loop is skipped on that
path, see the counterexample). -/
theorem transcribe_chunked_cleanup_without_extract_failure
    (outcomes : List ChunkOutcome)
    (h : ChunkOutcome.extract_raises ∉ outcomes) :
    (transcribe_chunked_run outcomes).deleted =
      (transcribe_chunked_run outcomes).created := by
  apply transcribe_chunked_files_cleanup
  intro p hp
  intro hcontra
  apply h
  rw [← hcontra]
  exact List.snd_mem_of_mem_enum hp

/-- C7 witness: three chunks, the middle one failing only at decode time —
every created temp file is deleted. -/
theorem transcribe_chunked_cleanup_without_extract_failure_witness :
    (transcribe_chunked_run
        [ChunkOutcome.ok, ChunkOutcome.decode_raises, ChunkOutcome.ok]).deleted =
      (transcribe_chunked_run
        [ChunkOutcome.ok, ChunkOutcome.decode_raises, ChunkOutcome.ok]).created :=
  transcribe_chunked_cleanup_without_extract_failure
    [ChunkOutcome.ok, ChunkOutcome.decode_raises, ChunkOutcome.ok] (by decide)

/-- The flattened text of one segment before stripping:
`' '.join(word.text for line in segment.lines for word in line.words)`
(`whisper_audio_transcriber.py` line 596), the segment modelled as its word
texts in order. -/
def seg_raw_text (ws : List String) : String := String.intercalate " " ws

/-- The stored per-segment text snapshot: the raw text stripped (line 597). -/
def seg_text (ws : List String) : String := pyStrip (seg_raw_text ws)

/-- The per-segment compression ratio (lines 600-602):
`len(text.encode('utf-8')) / max(len(text.split()) * 5, 1)`, computed from the
unstripped join exactly as the source does. -/
def compression_ratio (ws : List String) : ℚ :=
  ((seg_raw_text ws).utf8ByteSize : ℚ) /
    ((max ((pyWords (seg_raw_text ws)).length * 5) 1 : ℕ) : ℚ)

/-- Length of the run of texts equal to `cur` at the head of a list — the
`while j < len and texts[j] == current_text` count of lines 617-620. -/
def count_consecutive (cur : String) : List String → ℕ
  | [] => 0
  | t :: ts => if t = cur then count_consecutive cur ts + 1 else 0

/-- Detector 1, exact repetition (lines 607-626): for each position `i`, skip
texts shorter than 5 characters, count the consecutive identical texts from
`i`, and when the run exceeds 2 mark everything from the third occurrence on
(`range(i + 2, i + consecutive_count)`). -/
def detect_exact_repetition (texts : List String) (R : Finset ℕ) : Finset ℕ :=
  (List.range (texts.length - 1)).foldl
    (fun acc i =>
      if (texts.getD i "").length < 5 then acc
      else
        if 1 + count_consecutive (texts.getD i "") (texts.drop (i + 1)) > 2 then
          acc ∪ Finset.Ico (i + 2) (i + (1 + count_consecutive (texts.getD i "") (texts.drop (i + 1))))
        else acc)
    R

/-- Detector 2, compression ratio (lines 629-633): mark every segment whose
ratio exceeds the hardcoded 4.0 and whose stored text is longer than 20
characters. -/
def detect_compression (texts : List String) (comps : List ℚ) (R : Finset ℕ) : Finset ℕ :=
  (List.range texts.length).foldl
    (fun acc i =>
      if comps.getD i 0 > 4 ∧ (texts.getD i "").length > 20 then insert i acc
      else acc)
    R

/-- Detector 3, semantic repetition (`_detect_semantic_repetition`,
lines 675-696), the `difflib.SequenceMatcher(...).ratio()` call abstracted as
the similarity oracle `sim` (an external library, not repository code): for
each pair `i < j`, skipping indices already in the discard set — read at the
moment the loop reaches them — or with texts under 20 characters, mark `j`
when the lowercased texts' similarity exceeds the hardcoded 0.8. -/
def detect_semantic_repetition (sim : String → String → ℚ)
    (texts : List String) (R : Finset ℕ) : Finset ℕ :=
  (List.range texts.length).foldl
    (fun acc i =>
      if i ∈ acc ∨ (texts.getD i "").length < 20 then acc
      else
        (List.range' (i + 1) (texts.length - (i + 1))).foldl
          (fun acc2 j =>
            if j ∈ acc2 ∨ (texts.getD j "").length < 20 then acc2
            else if sim (pyLower (texts.getD i "")) (pyLower (texts.getD j "")) > 8/10 then
              insert j acc2
            else acc2)
          acc)
    R

/-- The hardcoded deny-list of lines 639-646. -/
def repetitive_phrases : List String :=
  ["E aí ele falou, ó, eu sou gay",
   "ele falou, ó, eu sou gay",
   "aí ele falou, ó, eu sou gay",
   "você pode me ajudar",
   "muito obrigado",
   "por favor"]

/-- The per-segment phrase condition of lines 650-655:
`phrase.lower() in text.lower() and len(text) < len(phrase) + 15`. -/
def phrase_hits (phrase t : String) : Bool :=
  strContainsSub (pyLower t) (pyLower phrase) && decide (t.length < phrase.length + 15)

/-- Detector 4, known repetitive phrases (lines 648-658): a segment matching a
deny-list phrase is marked when the whole transcript has more than 3 matches
of that phrase and at least 2 earlier segments already matched it. -/
def detect_known_phrases (texts : List String) (R : Finset ℕ) : Finset ℕ :=
  (List.range texts.length).foldl
    (fun acc i =>
      repetitive_phrases.foldl
        (fun acc2 phrase =>
          if phrase_hits phrase (texts.getD i "") then
            if (texts.filter (fun t => phrase_hits phrase t)).length > 3 then
              if ((texts.take i).filter (fun t => phrase_hits phrase t)).length ≥ 2 then
                insert i acc2
              else acc2
            else acc2
          else acc2)
        acc)
    R

/-- `a.lower().strip()`, the token normalization of the looping detector's
comparison (line 719). -/
def norm_tok (s : String) : String := pyStrip (pyLower s)

/-- The `while pos + pattern_length <= len(segment_texts)` loop of
`_detect_looping_patterns` (lines 713-726): count how many times the block at
`pos` keeps matching the pattern at 80% tolerance, advancing by the pattern
length. -/
def loop_match_count (texts pat : List String) (pl : ℕ) (pos : ℕ) : ℕ :=
  if h : 0 < pl ∧ pos + pl ≤ texts.length then
    if (((pat.zip ((texts.drop pos).take pl)).countP
          (fun p => norm_tok p.1 = norm_tok p.2) : ℕ) : ℚ) / (pl : ℚ) ≥ 8/10 then
      loop_match_count texts pat pl (pos + pl) + 1
    else 0
  else 0
termination_by texts.length - pos
decreasing_by omega

/-- Detector 5, looping patterns (`_detect_looping_patterns`, lines 698-737):
for pattern lengths `range(2, min(6, n // 3))` and starts
`range(n - pattern_length * 3)` not already discarded — read at the moment
the loop reaches them — when the pattern repeats at least twice immediately,
mark every index of every repetition (each clipped at `n`). -/
def detect_looping_patterns (texts : List String) (R : Finset ℕ) : Finset ℕ :=
  (List.range' 2 (min 6 (texts.length / 3) - 2)).foldl
    (fun accp pl =>
      (List.range (texts.length - pl * 3)).foldl
        (fun acc start =>
          if start ∈ acc then acc
          else
            if 2 ≤ loop_match_count texts ((texts.drop start).take pl) pl (start + pl) then
              acc ∪ (Finset.Ico (start + pl)
                (start + (loop_match_count texts ((texts.drop start).take pl) pl (start + pl) + 1) * pl)).filter
                  (fun idx => idx < texts.length)
            else acc)
        accp)
    R

/-- `_remove_repetitive_segments` (lines 586-673), parameterized by the
similarity oracle `sim` of detector 3: build the stripped text snapshot and
the compression ratios, run the five detectors in the source's order on one
shared discard set, and drop the marked segments. The configuration's
`enable_*` flags and thresholds do not appear because the source never
consults them here. -/
def remove_repetitive_segments (sim : String → String → ℚ)
    (doc : List (List String)) : List (List String) :=
  if doc.isEmpty then doc
  else
    let texts := doc.map seg_text
    let comps := doc.map compression_ratio
    let R := detect_looping_patterns texts
      (detect_known_phrases texts
        (detect_semantic_repetition sim texts
          (detect_compression texts comps
            (detect_exact_repetition texts ∅))))
    if R = ∅ then doc
    else (doc.enum.filter (fun p => p.1 ∉ R)).map Prod.snd

/-- Similarity oracle instantiating `sim` in concrete evaluations. difflib's
`SequenceMatcher.ratio()` returns 1.0 on identical strings, which is the only
value the evaluations below depend on: in each of them, every compared pair
of at-least-20-character texts is identical (or the comparison is skipped),
so any faithful model of the external library gives the same results. -/
def ratio_eq_one (a b : String) : ℚ := if a = b then 1 else 0

/-- The oracle is 1 on the diagonal, as difflib is. -/
theorem ratio_eq_one_self (a : String) : ratio_eq_one a a = 1 := by
  simp [ratio_eq_one]

/-- A fold whose step never changes the accumulator returns its start. -/
theorem foldl_eq_init {α β : Type _} (f : β → α → β) (l : List α)
    (h : ∀ acc, ∀ x ∈ l, f acc x = acc) : ∀ a, l.foldl f a = a := by
  induction l with
  | nil => intro a; rfl
  | cons x xs ih =>
    intro a
    rw [List.foldl_cons, h a x (List.mem_cons_self _ _)]
    exact ih (fun acc y hy => h acc y (List.mem_cons_of_mem _ hy)) a

/-- A fold whose step only ever unions marks determined by the element alone
factors through the empty start: this is what "operates on the snapshot only"
means for a detector. -/
theorem foldl_union_acc {α : Type _} (f : Finset ℕ → α → Finset ℕ)
    (g : α → Finset ℕ) (hf : ∀ acc x, f acc x = acc ∪ g x) (l : List α) :
    ∀ R, l.foldl f R = R ∪ l.foldl f ∅ := by
  induction l with
  | nil => intro R; simp
  | cons x xs ih =>
    intro R
    rw [List.foldl_cons, List.foldl_cons, hf, hf, ih (R ∪ g x), ih (∅ ∪ g x)]
    simp [Finset.union_assoc]

/-- The compression trigger, denominator cleared: the ratio exceeds 4 exactly
when the utf-8 byte length exceeds four times `max(5 * word count, 1)`. -/
theorem compression_ratio_gt_iff (x : List String) :
    compression_ratio x > 4 ↔
      4 * (max ((pyWords (seg_raw_text x)).length * 5) 1) < (seg_raw_text x).utf8ByteSize := by
  have hpos : (0 : ℚ) < ((max ((pyWords (seg_raw_text x)).length * 5) 1 : ℕ) : ℚ) := by
    have : (1 : ℕ) ≤ max ((pyWords (seg_raw_text x)).length * 5) 1 := le_max_right _ _
    exact_mod_cast Nat.lt_of_lt_of_le Nat.zero_lt_one this
  rw [compression_ratio, gt_iff_lt, lt_div_iff hpos]
  constructor
  · intro h
    exact_mod_cast h
  · intro h
    exact_mod_cast h

/-- The looping tolerance, denominator cleared: `count / pl ≥ 0.8` exactly
when `8 * pl ≤ 10 * count`, for a positive pattern length. -/
theorem loop_ratio_ge_iff (c pl : ℕ) (h : 0 < pl) :
    (((c : ℕ) : ℚ) / (pl : ℚ) ≥ 8/10) ↔ 8 * pl ≤ 10 * c := by
  have hpl : (0 : ℚ) < (pl : ℚ) := by exact_mod_cast h
  rw [ge_iff_le, div_le_div_iff (by norm_num) hpl]
  constructor
  · intro hq
    have hq2 : ((8 * pl : ℕ) : ℚ) ≤ ((10 * c : ℕ) : ℚ) := by push_cast; linarith
    exact_mod_cast hq2
  · intro hn
    have hq2 : ((8 * pl : ℕ) : ℚ) ≤ ((10 * c : ℕ) : ℚ) := by exact_mod_cast hn
    push_cast at hq2
    linarith

/-- When no text of the snapshot matches any deny-list phrase, the phrase
detector leaves the discard set unchanged. -/
theorem detect_known_phrases_no_hit (texts : List String) (R : Finset ℕ)
    (h : ∀ p ∈ repetitive_phrases, ∀ t ∈ texts, phrase_hits p t = false) :
    detect_known_phrases texts R = R := by
  rw [detect_known_phrases]
  apply foldl_eq_init
  intro acc i hi
  apply foldl_eq_init
  intro acc2 p hp
  have hlen : i < texts.length := List.mem_range.mp hi
  have hmem : texts.getD i "" ∈ texts := by
    rw [List.getD_eq_getElem texts "" hlen]
    exact List.getElem_mem hlen
  rw [h p hp _ hmem]
  simp

/-- When every text of the snapshot is shorter than 20 characters, the
semantic detector leaves the discard set unchanged (every index is skipped
before the oracle is consulted). -/
theorem detect_semantic_all_short (sim : String → String → ℚ)
    (texts : List String) (R : Finset ℕ)
    (h : ∀ t ∈ texts, t.length < 20) :
    detect_semantic_repetition sim texts R = R := by
  rw [detect_semantic_repetition]
  apply foldl_eq_init
  intro acc i hi
  have hlen : i < texts.length := List.mem_range.mp hi
  have hmem : texts.getD i "" ∈ texts := by
    rw [List.getD_eq_getElem texts "" hlen]
    exact List.getElem_mem hlen
  rw [if_pos (Or.inr (h _ hmem))]

/-- When no text of the snapshot is longer than 20 characters, the
compression detector leaves the discard set unchanged (its second conjunct
fails before any ratio matters). -/
theorem detect_compression_all_short (texts : List String) (comps : List ℚ)
    (R : Finset ℕ) (h : ∀ t ∈ texts, ¬ (t.length > 20)) :
    detect_compression texts comps R = R := by
  rw [detect_compression]
  apply foldl_eq_init
  intro acc i hi
  have hlen : i < texts.length := List.mem_range.mp hi
  have hmem : texts.getD i "" ∈ texts := by
    rw [List.getD_eq_getElem texts "" hlen]
    exact List.getElem_mem hlen
  rw [if_neg (fun hc => (h _ hmem) hc.2)]

/-- Input for C8: five segments whose text is the single character "X". -/
def doc_x5 : List (List String) := List.replicate 5 ["X"]

/-- C8 counterexample: with the segment text "X" repeated 5 times
consecutively, the exact-repetition detector marks NOTHING (texts shorter
than 5 characters are skipped at line 612), and the whole filter returns the
document unchanged — not the 3 marks the claim requires. -/
theorem exact_repetition_skips_short_text :
    detect_exact_repetition (List.replicate 5 "X") ∅ = ∅ ∧
    remove_repetitive_segments ratio_eq_one doc_x5 = doc_x5 ∧
    (∅ : Finset ℕ) ≠ ({2, 3, 4} : Finset ℕ) := by
  have htexts : doc_x5.map seg_text = List.replicate 5 "X" := by decide
  have hde : detect_exact_repetition (List.replicate 5 "X") ∅ = ∅ := by decide
  have hdc : detect_compression (List.replicate 5 "X") (doc_x5.map compression_ratio) ∅ = ∅ :=
    detect_compression_all_short _ _ _ (by decide)
  have hds : detect_semantic_repetition ratio_eq_one (List.replicate 5 "X") ∅ = ∅ :=
    detect_semantic_all_short _ _ _ (by decide)
  have hdp : detect_known_phrases (List.replicate 5 "X") ∅ = ∅ :=
    detect_known_phrases_no_hit _ _ (by decide)
  have hdl : detect_looping_patterns (List.replicate 5 "X") ∅ = ∅ := by decide
  refine ⟨hde, ?_, by decide⟩
  rw [remove_repetitive_segments]
  simp only [htexts, hde, hdc, hds, hdp, hdl]
  simp [doc_x5]

/-- C8 amended: the exact-repetition detector applies only to texts of at
least 5 characters; for any such text repeated 5 times consecutively, exactly
the 3 occurrences after the second are marked (the counterexample shows the
claim's 1-character "X" is instead exempt). -/
theorem exact_repetition_marks_after_second (t : String) (h5 : 5 ≤ t.length) :
    detect_exact_repetition (List.replicate 5 t) ∅ = ({2, 3, 4} : Finset ℕ) := by
  have hlen : ¬ (t.length < 5) := by omega
  rw [detect_exact_repetition]
  simp only [List.length_replicate]
  norm_num [List.range_succ, List.replicate_succ, count_consecutive, hlen]
  decide

/-- C8 witness: the amended property at the 5-character text "XXXXX". -/
theorem exact_repetition_marks_after_second_witness :
    detect_exact_repetition (List.replicate 5 "XXXXX") ∅ = ({2, 3, 4} : Finset ℕ) :=
  exact_repetition_marks_after_second "XXXXX" (by decide)

/-- Input for C3: two identical five-word segments (25 characters each, so
the semantic detector's length gate passes and the compression ratio is a
harmless 1.0). -/
def fox_words : List String := ["the", "quick", "brown", "fox", "jumps"]

/-- Two identical copies of the `fox_words` segment. -/
def doc_fox : List (List String) := [fox_words, fox_words]

/-- C3 evaluation: the semantic detector marks the later of two identical
long segments, and the filter drops it. The model of
`_remove_repetitive_segments` takes no configuration argument at all because
the source never consults `enable_semantic_filter` (or any other `enable_*`
flag, or the configured thresholds) — so this removal happens for every
configuration, including one with `enable_semantic_filter = False`. -/
theorem semantic_filter_runs_unconditionally :
    remove_repetitive_segments ratio_eq_one doc_fox = [fox_words] ∧
    detect_semantic_repetition ratio_eq_one (doc_fox.map seg_text) ∅ = {1} := by
  have htexts : doc_fox.map seg_text =
      ["the quick brown fox jumps", "the quick brown fox jumps"] := by decide
  have hlow : pyLower "the quick brown fox jumps" = "the quick brown fox jumps" := by decide
  have hlen20 : ¬ (("the quick brown fox jumps" : String).length < 20) := by decide
  have h810 : ((1 : ℚ) > 8/10) := by norm_num
  have hsem : detect_semantic_repetition ratio_eq_one
      ["the quick brown fox jumps", "the quick brown fox jumps"] ∅ = {1} := by
    rw [detect_semantic_repetition]
    simp [List.range_succ, hlow, hlen20, ratio_eq_one_self, h810, List.range']
  have hde : detect_exact_repetition
      ["the quick brown fox jumps", "the quick brown fox jumps"] ∅ = ∅ := by decide
  have hcr : ¬ (compression_ratio fox_words > 4) := by
    rw [compression_ratio_gt_iff]; decide
  have hdc : detect_compression
      ["the quick brown fox jumps", "the quick brown fox jumps"]
      (doc_fox.map compression_ratio) ∅ = ∅ := by
    rw [detect_compression]
    apply foldl_eq_init
    intro acc i hi
    have h2 : i < 2 := by simpa using List.mem_range.mp hi
    interval_cases i
    · rw [if_neg]; rintro ⟨h1, -⟩; exact hcr h1
    · rw [if_neg]; rintro ⟨h1, -⟩; exact hcr h1
  have hdp : detect_known_phrases
      ["the quick brown fox jumps", "the quick brown fox jumps"] ({1} : Finset ℕ) = {1} :=
    detect_known_phrases_no_hit _ _ (by decide)
  have hdl : detect_looping_patterns
      ["the quick brown fox jumps", "the quick brown fox jumps"] ({1} : Finset ℕ) = {1} := by
    decide
  constructor
  · rw [remove_repetitive_segments]
    simp only [htexts, hde, hdc, hsem, hdp, hdl]
    decide
  · rw [htexts]
    exact hsem

/-- A 21-character single-word segment text: compression ratio 21/5 = 4.2,
over the hardcoded 4.0 threshold, and longer than 20 characters. -/
def zword : String := "zzzzzzzzzzzzzzzzzzzzz"

/-- Input for C9: a high-compression segment sitting between identical
"hello" segments. The first pass removes only the high-compression segment,
which makes the three "hello" segments consecutive. -/
def doc_rep : List (List String) := [["hello"], [zword], ["hello"], ["hello"]]

/-- First pass of the filter over `doc_rep`: only the compression detector
fires, on the `zword` segment. -/
theorem remove_repetitive_doc_rep_first_pass :
    remove_repetitive_segments ratio_eq_one doc_rep = [["hello"], ["hello"], ["hello"]] := by
  have htexts : doc_rep.map seg_text = ["hello", zword, "hello", "hello"] := by decide
  have hlh : ("hello" : String).length = 5 := by decide
  have hlz : (zword : String).length = 21 := by decide
  have hcr_h : ¬ (compression_ratio ["hello"] > 4) := by
    rw [compression_ratio_gt_iff]; decide
  have hcr_z : compression_ratio [zword] > 4 := by
    rw [compression_ratio_gt_iff]; decide
  have hde : detect_exact_repetition ["hello", zword, "hello", "hello"] ∅ = ∅ := by decide
  have hdc : detect_compression ["hello", zword, "hello", "hello"]
      (doc_rep.map compression_ratio) ∅ = {1} := by
    rw [detect_compression]
    simp [doc_rep, List.range_succ, hcr_h, hcr_z, hlh, hlz]
  have hds : detect_semantic_repetition ratio_eq_one
      ["hello", zword, "hello", "hello"] ({1} : Finset ℕ) = {1} := by
    rw [detect_semantic_repetition]
    simp [List.range_succ, hlh, hlz, List.range']
  have hdp : detect_known_phrases ["hello", zword, "hello", "hello"]
      ({1} : Finset ℕ) = {1} :=
    detect_known_phrases_no_hit _ _ (by decide)
  have hdl : detect_looping_patterns ["hello", zword, "hello", "hello"]
      ({1} : Finset ℕ) = {1} := by decide
  rw [remove_repetitive_segments]
  simp only [htexts, hde, hdc, hds, hdp, hdl]
  decide

/-- Second pass of the filter: the three now-consecutive identical "hello"
segments form a run of 3, and the exact-repetition detector removes the
third. -/
theorem remove_repetitive_doc_rep_second_pass :
    remove_repetitive_segments ratio_eq_one [["hello"], ["hello"], ["hello"]] =
      [["hello"], ["hello"]] := by
  have htexts : ([["hello"], ["hello"], ["hello"]] : List (List String)).map seg_text =
      ["hello", "hello", "hello"] := by decide
  have hde : detect_exact_repetition ["hello", "hello", "hello"] ∅ = {2} := by decide
  have hdc : detect_compression ["hello", "hello", "hello"]
      (([["hello"], ["hello"], ["hello"]] : List (List String)).map compression_ratio)
      ({2} : Finset ℕ) = {2} :=
    detect_compression_all_short _ _ _ (by decide)
  have hds : detect_semantic_repetition ratio_eq_one ["hello", "hello", "hello"]
      ({2} : Finset ℕ) = {2} :=
    detect_semantic_all_short _ _ _ (by decide)
  have hdp : detect_known_phrases ["hello", "hello", "hello"] ({2} : Finset ℕ) = {2} :=
    detect_known_phrases_no_hit _ _ (by decide)
  have hdl : detect_looping_patterns ["hello", "hello", "hello"] ({2} : Finset ℕ) = {2} := by
    decide
  rw [remove_repetitive_segments]
  simp only [htexts, hde, hdc, hds, hdp, hdl]
  decide

/-- C9 counterexample: the filter is not idempotent. On `doc_rep` the first
pass removes the high-compression segment; that removal creates a new run of
three identical segments, and a second pass removes one more — so
`filter (filter doc_rep) ≠ filter doc_rep`. -/
theorem remove_repetitive_not_idempotent :
    remove_repetitive_segments ratio_eq_one doc_rep = [["hello"], ["hello"], ["hello"]] ∧
    remove_repetitive_segments ratio_eq_one
        (remove_repetitive_segments ratio_eq_one doc_rep) = [["hello"], ["hello"]] ∧
    remove_repetitive_segments ratio_eq_one
        (remove_repetitive_segments ratio_eq_one doc_rep) ≠
      remove_repetitive_segments ratio_eq_one doc_rep := by
  refine ⟨remove_repetitive_doc_rep_first_pass, ?_, ?_⟩
  · rw [remove_repetitive_doc_rep_first_pass]
    exact remove_repetitive_doc_rep_second_pass
  · rw [remove_repetitive_doc_rep_first_pass, remove_repetitive_doc_rep_second_pass]
    decide

/-- C9 amended: the filter only ever drops segments — its output is a
subsequence of its input — but it is no fixed point: a removal can create a
new consecutive run and a second pass can remove more (see the
counterexample). -/
theorem remove_repetitive_segments_sublist (sim : String → String → ℚ)
    (doc : List (List String)) :
    (remove_repetitive_segments sim doc).Sublist doc := by
  have key : ∀ R : Finset ℕ,
      ((doc.enum.filter (fun p => p.1 ∉ R)).map Prod.snd).Sublist doc := by
    intro R
    have hsub := List.Sublist.map Prod.snd
      (List.filter_sublist (p := fun p => decide (p.1 ∉ R)) doc.enum)
    rw [List.enum_map_snd] at hsub
    exact hsub
  rw [remove_repetitive_segments]
  split_ifs with h1
  · exact List.Sublist.refl doc
  · simp only []
    split_ifs with h2
    · exact List.Sublist.refl doc
    · exact key _

/-- A detector as it acts on the shared discard set, the snapshot already
fixed. Running a list of detectors folds them over the empty set, as
`_remove_repetitive_segments` does with its five steps. -/
def run_detectors (ds : List (Finset ℕ → Finset ℕ)) : Finset ℕ :=
  ds.foldl (fun R d => d R) ∅

/-- The five detectors in the source's order (steps 1-5 of
`_remove_repetitive_segments`). -/
def code_order (sim : String → String → ℚ) (texts : List String)
    (comps : List ℚ) : List (Finset ℕ → Finset ℕ) :=
  [detect_exact_repetition texts, detect_compression texts comps,
   detect_semantic_repetition sim texts, detect_known_phrases texts,
   detect_looping_patterns texts]

/-- The same five detectors with the compression and looping steps
exchanged — a permutation of `code_order`. -/
def swapped_order (sim : String → String → ℚ) (texts : List String)
    (comps : List ℚ) : List (Finset ℕ → Finset ℕ) :=
  [detect_exact_repetition texts, detect_looping_patterns texts,
   detect_semantic_repetition sim texts, detect_known_phrases texts,
   detect_compression texts comps]

/-- Input for C4: four repetitions of the block `[zword], ["ok"]` and a
trailing `["end"]`. The `zword` segments are high-compression marks for
detector 2 and the repeated block is a looping pattern for detector 5; the
two detectors see different already-marked sets depending on who runs
first. -/
def doc_ord : List (List String) :=
  [[zword], ["ok"], [zword], ["ok"], [zword], ["ok"], [zword], ["ok"], ["end"]]

/-- The text snapshot of `doc_ord`. -/
def ts_ord : List String := doc_ord.map seg_text

/-- The compression-ratio snapshot of `doc_ord`. -/
def comps_ord : List ℚ := doc_ord.map compression_ratio

/-- Snapshot of `doc_ord` as a literal. -/
theorem ts_ord_eval : ts_ord = [zword, "ok", zword, "ok", zword, "ok", zword, "ok", "end"] := by
  decide

/-- Step: the exact detector marks nothing on `ts_ord` (no two consecutive
texts are equal). -/
theorem ord_exact_eval :
    detect_exact_repetition [zword, "ok", zword, "ok", zword, "ok", zword, "ok", "end"] ∅ = ∅ := by
  decide

/-- Step: on an empty discard set the compression detector marks the four
`zword` segments. -/
theorem ord_comp_empty_eval :
    detect_compression [zword, "ok", zword, "ok", zword, "ok", zword, "ok", "end"]
      comps_ord ∅ = ({0, 2, 4, 6} : Finset ℕ) := by
  have hcr_z : compression_ratio [zword] > 4 := by
    rw [compression_ratio_gt_iff]; decide
  have hcr_ok : ¬ (compression_ratio ["ok"] > 4) := by
    rw [compression_ratio_gt_iff]; decide
  have hcr_end : ¬ (compression_ratio ["end"] > 4) := by
    rw [compression_ratio_gt_iff]; decide
  have hlz : (zword : String).length = 21 := by decide
  have hlok : ("ok" : String).length = 2 := by decide
  have hlend : ("end" : String).length = 3 := by decide
  rw [detect_compression]
  simp [comps_ord, doc_ord, List.range_succ, hcr_z, hcr_ok, hcr_end, hlz, hlok, hlend]
  decide

/-- Step: with the four `zword` indices already discarded, the semantic
detector skips every index (marked, or shorter than 20 characters) and never
reaches a comparison. -/
theorem ord_sem_after_comp_eval :
    detect_semantic_repetition ratio_eq_one
      [zword, "ok", zword, "ok", zword, "ok", zword, "ok", "end"]
      ({0, 2, 4, 6} : Finset ℕ) = ({0, 2, 4, 6} : Finset ℕ) := by
  have hlok : ("ok" : String).length = 2 := by decide
  have hlend : ("end" : String).length = 3 := by decide
  rw [detect_semantic_repetition]
  simp [List.range_succ, List.range', hlok, hlend]

/-- Step: the phrase detector never fires on `ts_ord`. -/
theorem ord_phrases_after_comp_eval :
    detect_known_phrases [zword, "ok", zword, "ok", zword, "ok", zword, "ok", "end"]
      ({0, 2, 4, 6} : Finset ℕ) = ({0, 2, 4, 6} : Finset ℕ) :=
  detect_known_phrases_no_hit _ _ (by decide)

/-- Kernel-computable twin of `loop_match_count`: explicit fuel instead of
well-founded recursion, and the 80% tolerance test with its denominator
cleared. Used only to evaluate the looping detector on concrete inputs. -/
def loop_match_count_fuel : ℕ → List String → List String → ℕ → ℕ → ℕ
  | 0, _, _, _, _ => 0
  | fuel + 1, texts, pat, pl, pos =>
    if 0 < pl ∧ pos + pl ≤ texts.length then
      if 8 * pl ≤ 10 * ((pat.zip ((texts.drop pos).take pl)).countP
          (fun p => norm_tok p.1 = norm_tok p.2)) then
        loop_match_count_fuel fuel texts pat pl (pos + pl) + 1
      else 0
    else 0

/-- The twin agrees with `loop_match_count` whenever the fuel covers the
positions left of the end of the text list. -/
theorem loop_match_count_eq_fuel (pat : List String) (pl : ℕ) :
    ∀ (fuel : ℕ) (texts : List String) (pos : ℕ), texts.length ≤ pos + fuel →
      loop_match_count texts pat pl pos = loop_match_count_fuel fuel texts pat pl pos := by
  intro fuel
  induction fuel with
  | zero =>
    intro texts pos h
    rw [loop_match_count, dif_neg]
    · rfl
    · rintro ⟨h1, h2⟩
      omega
  | succ n ih =>
    intro texts pos h
    rw [loop_match_count]
    by_cases hc : 0 < pl ∧ pos + pl ≤ texts.length
    · rw [dif_pos hc]
      have heq := loop_ratio_ge_iff
        ((pat.zip ((texts.drop pos).take pl)).countP
          (fun p => norm_tok p.1 = norm_tok p.2)) pl hc.1
      rw [show loop_match_count_fuel (n + 1) texts pat pl pos =
          if 0 < pl ∧ pos + pl ≤ texts.length then
            if 8 * pl ≤ 10 * ((pat.zip ((texts.drop pos).take pl)).countP
                (fun p => norm_tok p.1 = norm_tok p.2)) then
              loop_match_count_fuel n texts pat pl (pos + pl) + 1
            else 0
          else 0 from rfl]
      rw [if_pos hc]
      by_cases hr : 8 * pl ≤ 10 * ((pat.zip ((texts.drop pos).take pl)).countP
          (fun p => norm_tok p.1 = norm_tok p.2))
      · rw [if_pos (heq.mpr hr), if_pos hr, ih texts (pos + pl) (by omega)]
      · rw [if_neg (fun hx => hr (heq.mp hx)), if_neg hr]
    · rw [dif_neg hc]
      rw [show loop_match_count_fuel (n + 1) texts pat pl pos =
          if 0 < pl ∧ pos + pl ≤ texts.length then
            if 8 * pl ≤ 10 * ((pat.zip ((texts.drop pos).take pl)).countP
                (fun p => norm_tok p.1 = norm_tok p.2)) then
              loop_match_count_fuel n texts pat pl (pos + pl) + 1
            else 0
          else 0 from rfl]
      rw [if_neg hc]

/-- Step: with index 0 already discarded, the looping detector skips the
start of the `[zword, "ok"]` pattern and only catches the `["ok", zword]`
pattern starting at 1, marking indices 3-6. -/
theorem ord_loop_after_comp_eval :
    detect_looping_patterns [zword, "ok", zword, "ok", zword, "ok", zword, "ok", "end"]
      ({0, 2, 4, 6} : Finset ℕ) = ({0, 2, 3, 4, 5, 6} : Finset ℕ) := by
  have hlm : ∀ (pat : List String) (pl pos : ℕ),
      loop_match_count [zword, "ok", zword, "ok", zword, "ok", zword, "ok", "end"] pat pl pos =
      loop_match_count_fuel 9 [zword, "ok", zword, "ok", zword, "ok", zword, "ok", "end"] pat pl pos :=
    fun pat pl pos => loop_match_count_eq_fuel pat pl 9 _ pos (by simp)
  simp only [detect_looping_patterns, hlm]
  decide

/-- Step: on an empty discard set the looping detector catches the
`[zword, "ok"]` pattern at 0 (three repetitions, marking 2-7) and the
`["ok", zword]` pattern at 1 (marking 3-6). -/
theorem ord_loop_empty_eval :
    detect_looping_patterns [zword, "ok", zword, "ok", zword, "ok", zword, "ok", "end"]
      (∅ : Finset ℕ) = ({2, 3, 4, 5, 6, 7} : Finset ℕ) := by
  have hlm : ∀ (pat : List String) (pl pos : ℕ),
      loop_match_count [zword, "ok", zword, "ok", zword, "ok", zword, "ok", "end"] pat pl pos =
      loop_match_count_fuel 9 [zword, "ok", zword, "ok", zword, "ok", zword, "ok", "end"] pat pl pos :=
    fun pat pl pos => loop_match_count_eq_fuel pat pl 9 _ pos (by simp)
  simp only [detect_looping_patterns, hlm]
  decide

/-- Step: with indices 2-7 already discarded by the looping detector, the
semantic detector still marks nothing (index 0 now survives the skip but all
its partners are marked or short). -/
theorem ord_sem_after_loop_eval :
    detect_semantic_repetition ratio_eq_one
      [zword, "ok", zword, "ok", zword, "ok", zword, "ok", "end"]
      ({2, 3, 4, 5, 6, 7} : Finset ℕ) = ({2, 3, 4, 5, 6, 7} : Finset ℕ) := by
  have hlz : (zword : String).length = 21 := by decide
  have hlok : ("ok" : String).length = 2 := by decide
  have hlend : ("end" : String).length = 3 := by decide
  rw [detect_semantic_repetition]
  simp [List.range_succ, List.range', hlz, hlok, hlend]

/-- Step: the phrase detector never fires on `ts_ord` (looping-first
variant). -/
theorem ord_phrases_after_loop_eval :
    detect_known_phrases [zword, "ok", zword, "ok", zword, "ok", zword, "ok", "end"]
      ({2, 3, 4, 5, 6, 7} : Finset ℕ) = ({2, 3, 4, 5, 6, 7} : Finset ℕ) :=
  detect_known_phrases_no_hit _ _ (by decide)

/-- Step: run last, the compression detector adds index 0 (2, 4 and 6 are
already in the discard set). -/
theorem ord_comp_after_loop_eval :
    detect_compression [zword, "ok", zword, "ok", zword, "ok", zword, "ok", "end"]
      comps_ord ({2, 3, 4, 5, 6, 7} : Finset ℕ) = ({0, 2, 3, 4, 5, 6, 7} : Finset ℕ) := by
  have hcr_z : compression_ratio [zword] > 4 := by
    rw [compression_ratio_gt_iff]; decide
  have hcr_ok : ¬ (compression_ratio ["ok"] > 4) := by
    rw [compression_ratio_gt_iff]; decide
  have hcr_end : ¬ (compression_ratio ["end"] > 4) := by
    rw [compression_ratio_gt_iff]; decide
  have hlz : (zword : String).length = 21 := by decide
  have hlok : ("ok" : String).length = 2 := by decide
  have hlend : ("end" : String).length = 3 := by decide
  rw [detect_compression]
  simp [comps_ord, doc_ord, List.range_succ, hcr_z, hcr_ok, hcr_end, hlz, hlok, hlend]

/-- C4 counterexample: running the five detectors in the source's order marks
`{0,2,3,4,5,6}`, while the permutation with compression and looping exchanged
marks `{0,2,3,4,5,6,7}` — the union discard set depends on the detector
ordering, because the semantic and looping detectors skip indices already in
the shared discard set. (The similarity oracle is never consulted on this
input: every compared pair is skipped by length or by prior marking.) -/
theorem detector_order_dependence :
    run_detectors (code_order ratio_eq_one ts_ord comps_ord) = ({0, 2, 3, 4, 5, 6} : Finset ℕ) ∧
    run_detectors (swapped_order ratio_eq_one ts_ord comps_ord) = ({0, 2, 3, 4, 5, 6, 7} : Finset ℕ) ∧
    run_detectors (swapped_order ratio_eq_one ts_ord comps_ord) ≠
      run_detectors (code_order ratio_eq_one ts_ord comps_ord) := by
  have hc : run_detectors (code_order ratio_eq_one ts_ord comps_ord) =
      ({0, 2, 3, 4, 5, 6} : Finset ℕ) := by
    rw [run_detectors, code_order, ts_ord_eval]
    simp only [List.foldl_cons, List.foldl_nil]
    rw [ord_exact_eval, ord_comp_empty_eval, ord_sem_after_comp_eval,
      ord_phrases_after_comp_eval, ord_loop_after_comp_eval]
  have hs : run_detectors (swapped_order ratio_eq_one ts_ord comps_ord) =
      ({0, 2, 3, 4, 5, 6, 7} : Finset ℕ) := by
    rw [run_detectors, swapped_order, ts_ord_eval]
    simp only [List.foldl_cons, List.foldl_nil]
    rw [ord_exact_eval, ord_loop_empty_eval, ord_sem_after_loop_eval,
      ord_phrases_after_loop_eval, ord_comp_after_loop_eval]
  refine ⟨hc, hs, ?_⟩
  rw [hc, hs]
  decide

/-- C4 amended: the exact-repetition, compression-ratio and known-phrase
detectors consult only the text snapshot — their output is the incoming
discard set unioned with marks determined by the snapshot alone, so they are
insensitive to what other detectors marked before them. (The semantic and
looping detectors are NOT of this shape: they skip already-marked indices,
which is what the counterexample exploits.) -/
theorem snapshot_detectors_independent (texts : List String) (comps : List ℚ)
    (R : Finset ℕ) :
    detect_exact_repetition texts R = R ∪ detect_exact_repetition texts ∅ ∧
    detect_compression texts comps R = R ∪ detect_compression texts comps ∅ ∧
    detect_known_phrases texts R = R ∪ detect_known_phrases texts ∅ := by
  refine ⟨?_, ?_, ?_⟩
  · rw [detect_exact_repetition, detect_exact_repetition]
    apply foldl_union_acc _
      (fun i =>
        if (texts.getD i "").length < 5 then ∅
        else
          if 1 + count_consecutive (texts.getD i "") (texts.drop (i + 1)) > 2 then
            Finset.Ico (i + 2) (i + (1 + count_consecutive (texts.getD i "") (texts.drop (i + 1))))
          else ∅)
    intro acc i
    split_ifs <;> simp
  · rw [detect_compression, detect_compression]
    apply foldl_union_acc _
      (fun i =>
        if comps.getD i 0 > 4 ∧ (texts.getD i "").length > 20 then {i} else ∅)
    intro acc i
    split_ifs with h
    · rw [Finset.insert_eq, Finset.union_comm]
    · simp
  · rw [detect_known_phrases, detect_known_phrases]
    apply foldl_union_acc _
      (fun i =>
        repetitive_phrases.foldl
          (fun acc2 phrase =>
            if phrase_hits phrase (texts.getD i "") then
              if (texts.filter (fun t => phrase_hits phrase t)).length > 3 then
                if ((texts.take i).filter (fun t => phrase_hits phrase t)).length ≥ 2 then
                  insert i acc2
                else acc2
              else acc2
            else acc2)
          ∅)
    intro acc i
    apply foldl_union_acc _
      (fun phrase =>
        if phrase_hits phrase (texts.getD i "") then
          if (texts.filter (fun t => phrase_hits phrase t)).length > 3 then
            if ((texts.take i).filter (fun t => phrase_hits phrase t)).length ≥ 2 then
              ({i} : Finset ℕ)
            else ∅
          else ∅
        else ∅)
    intro acc2 phrase
    split_ifs with h1 h2 h3
    · rw [Finset.insert_eq, Finset.union_comm]
    all_goals simp
